import Mathlib

/-!
Shallow embedding of the asynchronous job orchestration and real-time
delivery subsystem of the RAG-Chatbot client:

* `RateLimiter` (src/chatbot-ui/src/utils/security.ts): sliding-window
  admission gate, state = the `timestamps` array.
* `trimMessages`, `safeGetItem`, `safeSetItem`, `clearOldestData`
  (src/chatbot-ui/src/utils/storage.ts): history store with per-agent
  trimming, versioned envelopes and quota eviction.
* `validateMessage` (src/chatbot-ui/src/utils/security.ts) and the
  pre-network gate of `sendMessage` / `sendMessageStreaming`
  (src/chatbot-ui/src/store/chatStore.ts).
* `executeStream` (src/chatbot-ui/src/api/agents.api.ts) and the
  streaming callbacks of `sendMessageStreaming`: the generation stream
  multiplexer and the delta-accumulation round trip.
* `streamJobStatus`, `pollJobStatus`, `startJobPolling`
  (src/chatbot-ui/src/utils/jobPolling.ts): the client reconciler with
  push (SSE) transport, poll fallback and cancellation.

Machine integers of the source are JavaScript numbers used only as
non-negative counters and timestamps; they are embedded as `Nat`.
JSON parsing, regular-expression sanitizers and `Date.now` are external
boundaries: parsed values arrive as explicit inductive data, sanitizers
are function parameters, and clocks are explicit arguments.
-/

namespace RagChatbot

/-! ## Rate limiter — `class RateLimiter` in security.ts -/

/-- Configuration of `RateLimiter`: `maxRequests` and `timeWindow` (ms). -/
structure RateLimiterConfig where
  maxRequests : Nat
  timeWindow : Nat
deriving Repr, DecidableEq

/-- The `new RateLimiter(10, 60000)` instance shared by the chat store. -/
def chatRateLimiter : RateLimiterConfig := ⟨10, 60000⟩

/-- Embeds `RateLimiter.canMakeRequest`.  The mutable `this.timestamps`
array is passed and returned explicitly.  The source first drops
timestamps outside the window (`now - ts < this.timeWindow`; `Nat`
subtraction truncates at zero exactly as the JS comparison keeps
not-yet-elapsed entries), then denies without pushing when
`timestamps.length >= maxRequests`, else pushes `now`. -/
def canMakeRequest (cfg : RateLimiterConfig) (now : Nat) (timestamps : List Nat) :
    Bool × List Nat :=
  let ts := timestamps.filter (fun t => now - t < cfg.timeWindow)
  if cfg.maxRequests ≤ ts.length then (false, ts)
  else (true, ts ++ [now])

/-- Embeds `RateLimiter.getRemainingRequests` (`Nat` subtraction is the
source's `Math.max(0, ...)`). -/
def getRemainingRequests (cfg : RateLimiterConfig) (now : Nat) (timestamps : List Nat) :
    Nat × List Nat :=
  let ts := timestamps.filter (fun t => now - t < cfg.timeWindow)
  (cfg.maxRequests - ts.length, ts)

/-- A sequence of `canMakeRequest` calls at the given clock readings,
returning the admission verdicts and the final `timestamps` state. -/
def runCalls (cfg : RateLimiterConfig) (timestamps : List Nat) :
    List Nat → List Bool × List Nat
  | [] => ([], timestamps)
  | now :: rest =>
    let r := canMakeRequest cfg now timestamps
    let rec' := runCalls cfg r.2 rest
    (r.1 :: rec'.1, rec'.2)

/-! ## History store — storage.ts -/

/-- `MAX_STORAGE_SIZE` — 4MB global byte quota. -/
def MAX_STORAGE_SIZE : Nat := 4 * 1024 * 1024

/-- `MAX_MESSAGES_PER_AGENT` — per-agent turn cap. -/
def MAX_MESSAGES_PER_AGENT : Nat := 100

/-- JavaScript `Array.prototype.slice(-n)`: the last `n` elements, except
that `slice(-0) = slice(0)` is the whole array. -/
def sliceLast {α : Type} (l : List α) (n : Nat) : List α :=
  if n = 0 then l else l.drop (l.length - n)

/-- Embeds `trimMessages`: keep the array as is when within the cap,
otherwise keep the most recent `maxCount` entries. -/
def trimMessages {α : Type} (messages : List α) (maxCount : Nat) : List α :=
  if messages.length ≤ maxCount then messages
  else sliceLast messages maxCount

/-- What `JSON.parse(localStorage.getItem(key))` can look like to
`safeGetItem`: the key may be absent, the raw string unparsable
(`JSON.parse` throws), the parsed value may fail the
`!parsed || typeof parsed !== 'object' || !('data' in parsed)` structure
check, or it is a `StorageData` envelope carrying `version`, `timestamp`
and `data`. -/
inductive StoredValue (α : Type) where
  | absent
  | unparsable
  | notAnObject
  | missingDataField
  | envelope (version : String) (timestamp : Nat) (data : α)
deriving Repr, DecidableEq

/-- Embeds `safeGetItem`: every malformed shape, a version other than
"1.0", and a failed validator all yield `null` (the source also removes
the offending key; the caller only observes the returned value).  The
`validator` argument mirrors the optional validator parameter. -/
def safeGetItem {α : Type} (validator : Option (α → Bool)) :
    StoredValue α → Option α
  | .absent => none
  | .unparsable => none
  | .notAnObject => none
  | .missingDataField => none
  | .envelope version _ data =>
    if version ≠ "1.0" then none
    else
      match validator with
      | some v => if v data then some data else none
      | none => some data

/-- One localStorage slot as the quota machinery sees it: its key, the
`timestamp` field its serialized envelope parses to (`0` when the stored
string is unparsable, matching the `catch` in `clearOldestData`), and the
length of the stored string. -/
structure StorageEntry where
  key : String
  timestamp : Nat
  valueLength : Nat
deriving Repr, DecidableEq

/-- The whole localStorage area, in key-iteration order. -/
abbrev Storage := List StorageEntry

/-- Embeds `getStorageSize`: the sum over all slots of key length plus
value length. -/
def getStorageSize (s : Storage) : Nat :=
  (s.map (fun e => e.key.length + e.valueLength)).sum

/-- The `key.startsWith('chat_history_')` filter of `clearOldestData`,
embedded as a prefix test on the character list. -/
def isChatHistoryKey (k : String) : Bool := "chat_history_".data.isPrefixOf k.data

/-- The comparator of `items.sort((a, b) => a.timestamp - b.timestamp)`:
ascending timestamps. -/
def byTimestamp (a b : StorageEntry) : Prop := a.timestamp ≤ b.timestamp

instance : DecidableRel byTimestamp := fun a b => Nat.decLe a.timestamp b.timestamp

instance : IsTotal StorageEntry byTimestamp := ⟨fun a b => Nat.le_total a.timestamp b.timestamp⟩

instance : IsTrans StorageEntry byTimestamp := ⟨fun _ _ _ => Nat.le_trans⟩

/-- Stable sort by ascending `timestamp`, embedding the (stable) JS
`items.sort((a, b) => a.timestamp - b.timestamp)` call as an insertion
sort. -/
def sortByTimestamp (l : List StorageEntry) : List StorageEntry :=
  List.insertionSort byTimestamp l

/-- `Math.ceil(n * 0.25)` for the array lengths that can occur (the
product is exact in floating point). -/
def ceilQuarter (n : Nat) : Nat := (n + 3) / 4

/-- The keys `clearOldestData` deletes: the oldest-timestamp 25%
(rounded up) of the `chat_history_` slots. -/
def oldestVictims (s : Storage) : List String :=
  let items := s.filter (fun e => isChatHistoryKey e.key)
  ((sortByTimestamp items).take (ceilQuarter items.length)).map (fun e => e.key)

/-- Embeds `clearOldestData`: collect the `chat_history_` slots with
their envelope timestamps, sort ascending, and remove the oldest 25%
(rounded up) from storage. -/
def clearOldestData (s : Storage) : Storage :=
  let victims := oldestVictims s
  s.filter (fun e => !victims.contains e.key)

/-- `localStorage.setItem`: replace the slot with the same key, or
append a fresh slot. -/
def setItem (s : Storage) (key : String) (ts len : Nat) : Storage :=
  if s.any (fun e => e.key = key) then
    s.map (fun e => if e.key = key then ⟨key, ts, len⟩ else e)
  else s ++ [⟨key, ts, len⟩]

/-- The browser side of `localStorage.setItem`: the write succeeds when
the resulting area fits in the browser quota `capacity`, and throws
`QuotaExceededError` (here `none`) otherwise. -/
def trySetItem (capacity : Nat) (s : Storage) (key : String) (ts len : Nat) :
    Option Storage :=
  let s' := setItem s key ts len
  if capacity < getStorageSize s' then none else some s'

/-- Embeds `safeSetItem` for a value whose serialized envelope has length
`serializedLen` and timestamp `ts`, against a browser quota `capacity`:
reject oversized values outright; when the write would push the area past
`MAX_STORAGE_SIZE`, run one `clearOldestData` pass; attempt the write; on
`QuotaExceededError` run one more `clearOldestData` pass and retry exactly
once, returning `false` if the retry also fails. -/
def safeSetItem (capacity : Nat) (s : Storage) (key : String) (ts serializedLen : Nat) :
    Bool × Storage :=
  if MAX_STORAGE_SIZE < serializedLen then (false, s)
  else
    let s1 := if MAX_STORAGE_SIZE < getStorageSize s + serializedLen
              then clearOldestData s else s
    match trySetItem capacity s1 key ts serializedLen with
    | some s2 => (true, s2)
    | none =>
      let s3 := clearOldestData s1
      match trySetItem capacity s3 key ts serializedLen with
      | some s4 => (true, s4)
      | none => (false, s3)

/-! ## Chat messages and input validation — chat.types.ts, security.ts -/

/-- Message roles in `ChatMessage`. -/
inductive Role where
  | user
  | assistant
  | system
deriving Repr, DecidableEq

/-- The `ChatMessage` shape held by the chat store (context documents are
kept as their content strings; their inner structure is never consulted
by this subsystem). -/
structure ChatMessage where
  id : String
  role : Role
  content : String
  timestamp : Nat
  contextDocuments : Option (List String)
  executionTimeMs : Option Nat
deriving Repr, DecidableEq

/-- A JavaScript runtime value reaching `validateMessage` through the
untyped boundary: a string, or anything else (`typeof message !==
'string'`). -/
inductive JsValue where
  | str (s : String)
  | nonString
deriving Repr, DecidableEq

/-- Return shape of `validateMessage`. -/
structure ValidationResult where
  valid : Bool
  sanitized : String
  error : Option String
deriving Repr, DecidableEq

/-- Embeds `validateMessage`.  `sanitizeInput` is the regex-based XSS
scrubber, an external boundary passed as a parameter; the invalid paths
never consult it.  JS `!message` is true for the empty string, so `''`
takes the first branch.  `trim` and `length` follow the Lean `String`
primitives (the source strings are plain text). -/
def validateMessage (sanitizeInput : String → String) : JsValue → ValidationResult
  | .nonString => ⟨false, "", some "Message must be a non-empty string"⟩
  | .str s =>
    if s = "" then ⟨false, "", some "Message must be a non-empty string"⟩
    else
      let trimmed := s.trim
      if trimmed.length = 0 then ⟨false, "", some "Message cannot be empty"⟩
      else if 10000 < trimmed.length then
        ⟨false, "", some "Message too long (max 10000 characters)"⟩
      else ⟨true, sanitizeInput trimmed, none⟩

/-- The slice of the zustand chat store state that the send gates read
and write. -/
structure ChatState where
  messages : List ChatMessage
  currentAgent : Option String
  isExecuting : Bool
  error : Option String
deriving Repr, DecidableEq

/-- An execute request as built by the store: agent id and sanitized
query. -/
structure ExecuteRequest where
  agentId : String
  query : String
deriving Repr, DecidableEq

/-- Embeds the pre-network phase of `sendMessageStreaming` (chatStore.ts):
agent presence check, `isValidAgentId` check (the regex test is the
`validAgentId` parameter), `validateMessage`, the shared rate limiter,
then appending the user message and the empty assistant placeholder and
issuing the request.  Returns the new state, the new rate-limiter
timestamps, and the request sent over the network (`none` when the gate
exits early). -/
def sendMessageStreamingGate (sanitizeInput : String → String)
    (validAgentId : String → Bool) (now : Nat) (userId assistantId : String)
    (ts : Nat) (rl : List Nat) (state : ChatState) (query : JsValue) :
    ChatState × List Nat × Option ExecuteRequest :=
  match state.currentAgent with
  | none => (state, rl, none)
  | some agentId =>
    if ¬ validAgentId agentId then (state, rl, none)
    else
      let validation := validateMessage sanitizeInput query
      if ¬ validation.valid then (state, rl, none)
      else
        let adm := canMakeRequest chatRateLimiter now rl
        if ¬ adm.1 then (state, adm.2, none)
        else
          let userMessage : ChatMessage :=
            ⟨userId, .user, validation.sanitized, ts, none, none⟩
          let assistantMessage : ChatMessage :=
            ⟨assistantId, .assistant, "", ts, none, none⟩
          ({ state with
              messages := state.messages ++ [userMessage, assistantMessage],
              isExecuting := true, error := none },
           adm.2, some ⟨agentId, validation.sanitized⟩)

/-- Embeds the pre-network phase of the non-streaming `sendMessage`
(after its `useStreaming` delegation): the same four guards, then the
user message alone is appended before `agentsApi.execute` is called. -/
def sendMessageGate (sanitizeInput : String → String)
    (validAgentId : String → Bool) (now : Nat) (userId : String)
    (ts : Nat) (rl : List Nat) (state : ChatState) (query : JsValue) :
    ChatState × List Nat × Option ExecuteRequest :=
  match state.currentAgent with
  | none => (state, rl, none)
  | some agentId =>
    if ¬ validAgentId agentId then (state, rl, none)
    else
      let validation := validateMessage sanitizeInput query
      if ¬ validation.valid then (state, rl, none)
      else
        let adm := canMakeRequest chatRateLimiter now rl
        if ¬ adm.1 then (state, adm.2, none)
        else
          let userMessage : ChatMessage :=
            ⟨userId, .user, validation.sanitized, ts, none, none⟩
          ({ state with
              messages := state.messages ++ [userMessage],
              isExecuting := true, error := none },
           adm.2, some ⟨agentId, validation.sanitized⟩)

/-! ## Generation stream multiplexer — `executeStream` in agents.api.ts -/

/-- A logical SSE event after the `data: ` framing and `JSON.parse`
boundary: the five typed variants of the producer, plus `malformed` for a
line whose JSON fails to parse or whose `type` tag is unknown (both are
skipped by the consumer). -/
inductive StreamEvent where
  | metadata (agentId agentName : String) (hasRag : Bool)
  | context (documents : List String)
  | content (delta : String)
  | done (executionTimeMs : Nat)
  | error (message : String)
  | malformed
deriving Repr, DecidableEq

/-- How the transport run ends: the reader reports a clean end of stream
(`done = true`), or `fetch`/`read` throws mid-stream with a message. -/
inductive TransportEnd where
  | eof
  | failure (msg : String)
deriving Repr, DecidableEq

/-- The consumer-side callbacks `executeStream` can invoke, in
invocation order. -/
inductive StreamCallback where
  | onMetadata (agentId agentName : String) (hasRag : Bool)
  | onContext (documents : List String)
  | onContent (delta : String)
  | onDone (executionTimeMs : Nat)
  | onError (message : String)
deriving Repr, DecidableEq

/-- The `switch (eventData.type)` dispatch of `executeStream`: each
parsed event maps to at most one callback; malformed lines are logged
and skipped.  The loop does not stop at a terminal event. -/
def dispatchEvent : StreamEvent → List StreamCallback
  | .metadata a n r => [.onMetadata a n r]
  | .context d => [.onContext d]
  | .content c => [.onContent c]
  | .done ms => [.onDone ms]
  | .error m => [.onError m]
  | .malformed => []

/-- Whether `executeStream`'s promise resolved or rethrew. -/
inductive StreamOutcome where
  | returned
  | threw (msg : String)
deriving Repr, DecidableEq

/-- Is this callback the consumer-visible error surface? -/
def isStreamErrorCb : StreamCallback → Bool
  | .onError _ => true
  | _ => false

/-- Embeds `executeStream` over the events the transport delivered
before it ended: every event is dispatched in order; a clean end of
stream simply leaves the read loop (no callback), while a thrown
transport error lands in the `catch`, which invokes `onError` with the
error message and rethrows. -/
def executeStream (frames : List StreamEvent) : TransportEnd →
    List StreamCallback × StreamOutcome
  | .eof => ((frames.map dispatchEvent).flatten, .returned)
  | .failure msg => ((frames.map dispatchEvent).flatten ++ [.onError msg], .threw msg)

/-- The `content` deltas of a list of stream events, in emission
order. -/
def streamDeltas (frames : List StreamEvent) : List String :=
  frames.filterMap fun fr =>
    match fr with
    | .content c => some c
    | _ => none

/-- Does this event close the stream per the producer contract? -/
def isTerminalEvent : StreamEvent → Bool
  | .done _ => true
  | .error _ => true
  | _ => false

/-- Is this callback one of the two terminal consumer callbacks? -/
def isTerminalStreamCb : StreamCallback → Bool
  | .onDone _ => true
  | .onError _ => true
  | _ => false

/-- The delta carried by a callback, if it is `onContent`. -/
def streamCbDelta : StreamCallback → Option String
  | .onContent c => some c
  | _ => none

/-! ## Streaming accumulation in the chat store — `sendMessageStreaming` -/

/-- The store state threaded through the `executeStream` callbacks of
`sendMessageStreaming`, together with the local `accumulatedContent`
variable. -/
structure StreamingState where
  messages : List ChatMessage
  accumulated : String
  isExecuting : Bool
  error : Option String
deriving Repr, DecidableEq

/-- The `messages.map` update pattern used by every callback: rewrite
only the message whose `id` is the assistant placeholder's. -/
def updateAssistant (assistantId : String) (f : ChatMessage → ChatMessage)
    (messages : List ChatMessage) : List ChatMessage :=
  messages.map (fun m => if m.id = assistantId then f m else m)

/-- Embeds the callback object `sendMessageStreaming` hands to
`executeStream`: `onMetadata` only logs; `onContext` stores the documents
on the placeholder; `onContent` extends `accumulatedContent` and rewrites
the placeholder's `content` to the whole accumulation; `onDone` stamps
the execution time, trims to the per-agent cap and clears `isExecuting`;
`onError` records the error and turns the placeholder into a system
error message. -/
def applyStreamCallback (assistantId : String) (st : StreamingState) :
    StreamCallback → StreamingState
  | .onMetadata _ _ _ => st
  | .onContext docs =>
    { st with
        messages :=
          updateAssistant assistantId
            (fun m => { m with contextDocuments := some docs }) st.messages }
  | .onContent c =>
    let acc := st.accumulated ++ c
    { st with
        accumulated := acc,
        messages :=
          updateAssistant assistantId (fun m => { m with content := acc })
            st.messages }
  | .onDone ms =>
    { st with
        messages :=
          trimMessages
            (updateAssistant assistantId
              (fun m => { m with executionTimeMs := some ms }) st.messages)
            MAX_MESSAGES_PER_AGENT,
        isExecuting := false }
  | .onError e =>
    { st with
        error := some ("Streaming error: " ++ e),
        isExecuting := false,
        messages :=
          updateAssistant assistantId
            (fun m => { m with role := .system, content := "Error: " ++ e })
            st.messages }

/-- Run the streaming callbacks in invocation order. -/
def runStreamingCallbacks (assistantId : String) (st : StreamingState)
    (cbs : List StreamCallback) : StreamingState :=
  cbs.foldl (applyStreamCallback assistantId) st

/-- The state of `sendMessageStreaming` right after the placeholder was
appended: prior conversation plus the fresh empty assistant message. -/
def streamingInitState (prior : List ChatMessage) (assistantId : String)
    (ts : Nat) : StreamingState :=
  ⟨prior ++ [⟨assistantId, .assistant, "", ts, none, none⟩], "", true, none⟩

/-! ## History load — `loadHistory` in chatStore.ts -/

/-- Embeds `sanitizeMessageForStorage`: the content passes through the
`sanitizeInput` scrubber, every other field is kept. -/
def sanitizeMessageForStorage (sanitizeInput : String → String)
    (m : ChatMessage) : ChatMessage :=
  { m with content := sanitizeInput m.content }

/-- Embeds `loadHistory`: an invalid agent id skips the load; otherwise
`safeGetItem` is consulted with the `isChatMessageArray` validator (the
structural per-element check, passed as `validator`), and only a
non-null result replaces the store's messages (sanitized, timestamps
re-parsed, trimmed to the cap).  When `safeGetItem` yields `null` the
state — and in particular its message list — is left untouched. -/
def loadHistory (sanitizeInput : String → String)
    (validator : List ChatMessage → Bool) (agentIdValid : Bool)
    (stored : StoredValue (List ChatMessage)) (state : ChatState) : ChatState :=
  if !agentIdValid then state
  else
    match safeGetItem (some validator) stored with
    | none => state
    | some msgs =>
      { state with
          messages :=
            trimMessages (msgs.map (sanitizeMessageForStorage sanitizeInput))
              MAX_MESSAGES_PER_AGENT }

/-- A concrete localStorage area holding four chat histories of two
megabytes each — together well past `MAX_STORAGE_SIZE`. -/
def demoStorage : Storage :=
  [⟨"chat_history_a", 1, 2 * 1024 * 1024⟩,
   ⟨"chat_history_b", 2, 2 * 1024 * 1024⟩,
   ⟨"chat_history_c", 3, 2 * 1024 * 1024⟩,
   ⟨"chat_history_d", 4, 2 * 1024 * 1024⟩]

/-! ## Client reconciler — jobPolling.ts -/

/-- The result payload of an index job (`Index` in index.types.ts); its
fields are opaque to the reconciler and the name stands in for them. -/
structure Index where
  indexName : String
deriving Repr, DecidableEq

/-- The `status` string of a `JobResponse`; `other` covers any string
besides the four documented values (the `default` switch arm). -/
inductive JobStatus where
  | pending
  | running
  | completed
  | failed
  | other (s : String)
deriving Repr, DecidableEq

/-- A `JobResponse` snapshot as the client observes it. -/
structure JobResponse where
  status : JobStatus
  progress : Nat
  result : Option Index
  error : Option String
deriving Repr, DecidableEq

/-- JavaScript `x || default` for an optional string field: `null`,
`undefined` and `''` are falsy. -/
def jsOrDefault (v : Option String) (fallback : String) : String :=
  match v with
  | some s => if s = "" then fallback else s
  | none => fallback

/-- A caller-supplied callback invocation of the job reconciler. -/
inductive JobCallback where
  | onProgress (progress : Nat) (job : JobResponse)
  | onComplete (result : Index)
  | onError (msg : String)
deriving Repr, DecidableEq

/-- Is this invocation the `onComplete` terminal surface? -/
def isCompleteCb : JobCallback → Bool
  | .onComplete _ => true
  | _ => false

/-- Is this invocation the `onError` terminal surface? -/
def isErrorCb : JobCallback → Bool
  | .onError _ => true
  | _ => false

/-- Is this invocation terminal (`onComplete` or `onError`)? -/
def isTerminalCb (cb : JobCallback) : Bool := isCompleteCb cb || isErrorCb cb

/-- How the promise of a transport settles. -/
inductive Outcome where
  | resolved (r : Index)
  | rejected (msg : String)
deriving Repr, DecidableEq

/-- What one `jobsApi.getStatus` call yields: a snapshot, or a thrown
network error (an `Error` whose message the `catch` reads). -/
inductive PollFetch where
  | ok (job : JobResponse)
  | netError (msg : String)
deriving Repr, DecidableEq

/-- The `catch` block wrapping the whole body of `poll`: any thrown
`Error` is reported to `onError` once more ("If error hasn't been
reported yet, report it" — the code re-reports unconditionally) and
rethrown. -/
def pollCatchWrap (r : List JobCallback × Outcome) : List JobCallback × Outcome :=
  match r with
  | (cbs, .resolved v) => (cbs, .resolved v)
  | (cbs, .rejected m) => (cbs ++ [.onError m], .rejected m)

/-- Embeds the recursive `poll` closure of `pollJobStatus`.  `fetch k` is
the response to the k-th `getStatus` call (1-based), `attempt` is the
value of `attempts` after the `attempts++` of the current call, and
`fuel` is a structural bound kept at `maxAttempts + 2 - attempt`, which
never reaches the (unreachable) zero case because the
`attempts > maxAttempts` guard fires first.  Callback invocations are
collected in order; the outcome is the settlement of the returned
promise. -/
def pollGo (fetch : Nat → PollFetch) (maxAttempts : Nat) :
    Nat → Nat → List JobCallback × Outcome
  | 0, _ => ([], .rejected "unreachable: fuel exhausted")
  | fuel + 1, attempt =>
    pollCatchWrap <|
      if maxAttempts < attempt then
        ([.onError "Job polling timeout: maximum attempts reached"],
         .rejected "Job polling timeout: maximum attempts reached")
      else
        match fetch attempt with
        | .netError m => ([], .rejected m)
        | .ok job =>
          match job.status with
          | .pending =>
            let r := pollGo fetch maxAttempts fuel (attempt + 1)
            (.onProgress job.progress job :: r.1, r.2)
          | .running =>
            let r := pollGo fetch maxAttempts fuel (attempt + 1)
            (.onProgress job.progress job :: r.1, r.2)
          | .completed =>
            match job.result with
            | some res => ([.onComplete res], .resolved res)
            | none =>
              ([.onError "Job completed but no result returned"],
               .rejected "Job completed but no result returned")
          | .failed =>
            let m := jsOrDefault job.error "Job failed with unknown error"
            ([.onError m], .rejected m)
          | .other s =>
            let m := "Unknown job status: " ++ s
            ([.onError m], .rejected m)

/-- Embeds `pollJobStatus` with its callbacks and promise settlement:
the first call runs with `attempts = 1` and enough fuel for the
`maxAttempts` guard to fire first. -/
def pollJobStatus (fetch : Nat → PollFetch) (maxAttempts : Nat) :
    List JobCallback × Outcome :=
  pollGo fetch maxAttempts (maxAttempts + 1) 1

/-- One data frame of the SSE push channel after `JSON.parse`:
parsing may throw (`parseFailure` carries the `Error` message), the
parsed object may carry a non-null non-undefined `error` field (the value
may be the falsy `''`), or it is a `JobResponse` whose `error` field is
null or absent. -/
inductive SSEPayload where
  | parseFailure (msg : String)
  | errorField (value : String)
  | job (j : JobResponse)
deriving Repr, DecidableEq

/-- One occurrence on the push channel: a message event, or an
`onerror` connection error. -/
inductive SSEFrame where
  | message (payload : SSEPayload)
  | connError
deriving Repr, DecidableEq

/-- Embeds the `onmessage`/`onerror` handlers of `streamJobStatus` over
the frames delivered before the source closed: returns the callback
invocations, the first settlement of the promise (if any frame settled
it), and the final value of the `completed` flag.  Processing stops at
the first frame that calls `eventSource.close()`; note that the
`data.error`, parse-failure and connection-error paths close and reject
without setting `completed`. -/
def streamGo : List SSEFrame → List JobCallback × Option Outcome × Bool
  | [] => ([], none, false)
  | .connError :: _ =>
    ([.onError "Stream connection failed"],
     some (.rejected "Stream connection failed"), false)
  | .message p :: rest =>
    match p with
    | .parseFailure m => ([.onError m], some (.rejected m), false)
    | .errorField v =>
      let m := if v = "" then "Unknown error from server" else v
      ([.onError m], some (.rejected m), false)
    | .job j =>
      match j.status with
      | .completed =>
        match j.result with
        | some r =>
          ([.onProgress j.progress j, .onComplete r], some (.resolved r), true)
        | none =>
          ([.onProgress j.progress j,
            .onError "Job completed but no result returned"],
           some (.rejected "Job completed but no result returned"), true)
      | .failed =>
        let m := jsOrDefault j.error "Job failed with unknown error"
        ([.onProgress j.progress j, .onError m], some (.rejected m), true)
      | .pending =>
        let r := streamGo rest
        (.onProgress j.progress j :: r.1, r.2.1, r.2.2)
      | .running =>
        let r := streamGo rest
        (.onProgress j.progress j :: r.1, r.2.1, r.2.2)
      | .other _ =>
        let r := streamGo rest
        (.onProgress j.progress j :: r.1, r.2.1, r.2.2)

/-- Embeds `streamJobStatus` including its five-minute `setTimeout`
watchdog: the timer always runs, and whenever the `completed` flag is
still false when it fires it closes the source, invokes `onError` once
more and calls `reject` (a no-op on an already settled promise).  The
returned outcome is the promise's first settlement. -/
def streamJobStatus (frames : List SSEFrame) : List JobCallback × Outcome :=
  let r := streamGo frames
  if r.2.2 then
    (r.1, (r.2.1).getD (.rejected "unreachable: completed implies settled"))
  else
    (r.1 ++ [.onError "Stream timeout after 5 minutes"],
     (r.2.1).getD (.rejected "Stream timeout after 5 minutes"))

/-- One execution point of a `startJobPolling` session at which the
source consults the `cancelled` flag or fires a callback: an SSE-phase
callback site (wrapped by `sseOptionsWithFallback`), the fallback
decision inside `.catch`, or a poll-phase callback site (wrapped by
`wrappedOptions`). -/
inductive RawEvent where
  | sseCb (cb : JobCallback)
  | fallbackCheck
  | pollCb (cb : JobCallback)
deriving Repr, DecidableEq

/-- The execution points a `startJobPolling` session runs through, in
order: the push phase's callback sites; then, if and only if the push
promise rejected, the single `.catch` fallback decision followed by the
poll loop's callback sites.  (A promise settles once, and the
`fallbackActive` flag additionally pins the fallback to one attempt, so
the poll phase appears at most once.)  With `useStreaming = false` the
poll loop runs directly. -/
def rawSession (frames : List SSEFrame) (fetch : Nat → PollFetch)
    (maxAttempts : Nat) (useStreaming : Bool) : List RawEvent :=
  if useStreaming then
    let sse := streamJobStatus frames
    (sse.1.map RawEvent.sseCb) ++
      (match sse.2 with
       | .resolved _ => []
       | .rejected _ =>
         .fallbackCheck :: ((pollJobStatus fetch maxAttempts).1.map RawEvent.pollCb))
  else (pollJobStatus fetch maxAttempts).1.map RawEvent.pollCb

/-- Replay the execution points against a cancellation time: `cancelAt =
some c` means the caller's `cancel()` ran (setting `cancelled := true`)
after `c` execution points.  Each site re-checks the flag exactly as the
source does: `sseOptionsWithFallback` forwards `onProgress`/`onComplete`
only when not cancelled and always swallows `onError`; the `.catch`
fallback decision requires `!cancelled` (a cancelled session never starts
the poll loop); `wrappedOptions` forwards every callback only when not
cancelled.  The result is the list of caller-visible callback
invocations. -/
def replaySession (cancelAt : Option Nat) : List RawEvent → Nat → List JobCallback
  | [], _ => []
  | ev :: rest, i =>
    let cancelled := match cancelAt with
      | some c => decide (c ≤ i)
      | none => false
    match ev with
    | .sseCb cb =>
      (if !cancelled && !isErrorCb cb then [cb] else []) ++
        replaySession cancelAt rest (i + 1)
    | .pollCb cb =>
      (if !cancelled then [cb] else []) ++ replaySession cancelAt rest (i + 1)
    | .fallbackCheck =>
      if cancelled then [] else replaySession cancelAt rest (i + 1)

/-- The caller-visible callbacks of a whole `startJobPolling` session
with an optional cancellation point. -/
def startJobPollingRun (frames : List SSEFrame) (fetch : Nat → PollFetch)
    (maxAttempts : Nat) (useStreaming : Bool) (cancelAt : Option Nat) :
    List JobCallback :=
  replaySession cancelAt (rawSession frames fetch maxAttempts useStreaming) 0

/-- The caller-visible callbacks of an uncancelled session. -/
def startJobPollingCallbacks (frames : List SSEFrame) (fetch : Nat → PollFetch)
    (maxAttempts : Nat) (useStreaming : Bool) : List JobCallback :=
  startJobPollingRun frames fetch maxAttempts useStreaming none

/-! ## Supporting lemmas -/

/-- From an empty limiter state, runs in which every entry of `acc ++
times` is still within the window at each later call admit every call and
only append. -/
theorem runCalls_admits_all (acc times : List Nat)
    (hcap : acc.length + times.length ≤ 10)
    (hwin : ∀ t ∈ acc ++ times, ∀ n ∈ times, n - t < 60000) :
    runCalls chatRateLimiter acc times = (List.replicate times.length true, acc ++ times) := by
  induction times generalizing acc with
  | nil => simp [runCalls]
  | cons now rest ih =>
    have hcap' : acc.length + rest.length + 1 ≤ 10 := by
      simp only [List.length_cons] at hcap
      omega
    have hkeep : acc.filter (fun t => decide (now - t < chatRateLimiter.timeWindow)) = acc := by
      apply List.filter_eq_self.mpr
      intro t ht
      exact decide_eq_true (hwin t (List.mem_append_left _ ht) now (List.mem_cons_self _ _))
    have hlt : ¬ chatRateLimiter.maxRequests ≤ acc.length := by
      show ¬ (10 : Nat) ≤ acc.length
      omega
    have hstep : canMakeRequest chatRateLimiter now acc = (true, acc ++ [now]) := by
      simp only [canMakeRequest, hkeep, if_neg hlt]
    have hrec := ih (acc ++ [now])
      (by simp; omega)
      (by
        intro t ht n hn
        rcases List.mem_append.mp ht with h1 | h2
        · rcases List.mem_append.mp h1 with ha | hb
          · exact hwin t (List.mem_append_left _ ha) n (List.mem_cons_of_mem _ hn)
          · have : t = now := by simpa using hb
            subst this
            exact hwin t (by simp) n (List.mem_cons_of_mem _ hn)
        · exact hwin t (by simp [h2]) n (List.mem_cons_of_mem _ hn))
    simp only [runCalls, hstep, hrec]
    simp [List.append_assoc, List.replicate_succ]

/-- Run the `validateMessage` early exit through `sendMessageStreamingGate`. -/
theorem sendMessageStreamingGate_invalid (sanitizeInput : String → String)
    (validAgentId : String → Bool) (now : Nat) (userId assistantId : String)
    (ts : Nat) (rl : List Nat) (state : ChatState) (query : JsValue)
    (h : (validateMessage sanitizeInput query).valid = false) :
    sendMessageStreamingGate sanitizeInput validAgentId now userId assistantId
      ts rl state query = (state, rl, none) := by
  unfold sendMessageStreamingGate
  cases hag : state.currentAgent with
  | none => rfl
  | some agentId =>
    by_cases hv : validAgentId agentId
    · simp [hv, h]
    · simp [hv]

/-- Run the `validateMessage` early exit through `sendMessageGate`. -/
theorem sendMessageGate_invalid (sanitizeInput : String → String)
    (validAgentId : String → Bool) (now : Nat) (userId : String)
    (ts : Nat) (rl : List Nat) (state : ChatState) (query : JsValue)
    (h : (validateMessage sanitizeInput query).valid = false) :
    sendMessageGate sanitizeInput validAgentId now userId ts rl state query =
      (state, rl, none) := by
  unfold sendMessageGate
  cases hag : state.currentAgent with
  | none => rfl
  | some agentId =>
    by_cases hv : validAgentId agentId
    · simp [hv, h]
    · simp [hv]

/-- An input that is not a string, trims to nothing, or overflows the cap
is rejected with an empty sanitized text. -/
theorem validateMessage_invalid (sanitizeInput : String → String) (query : JsValue)
    (h : query = JsValue.nonString ∨
      ∃ s, query = JsValue.str s ∧ (s.trim = "" ∨ 10000 < s.trim.length)) :
    (validateMessage sanitizeInput query).valid = false ∧
      (validateMessage sanitizeInput query).sanitized = "" := by
  rcases h with h | ⟨s, rfl, hs⟩
  · subst h; exact ⟨rfl, rfl⟩
  · by_cases hempty : s = ""
    · subst hempty
      simp [validateMessage]
    · rcases hs with htrim | hlong
      · simp [validateMessage, hempty, htrim]
      · have hne : ¬ s.trim.length = 0 := by omega
        simp [validateMessage, hempty, hne, hlong]

/-! ## Claims -/

/-- C1.  The claim states that the terminal callbacks of a job tracked by
`pollJobStatus` (also reached through `startJobPolling`'s fallback) fire
through exactly one terminal path and never more than once.  The code
contradicts this (and its own comment "If error hasn't been reported
yet, report it"): for a job that is already `failed` at the first poll,
the `failed` switch arm invokes `onError` and throws, and the enclosing
`catch` invokes `onError` again with the same message, so the caller's
error callback fires twice. -/
theorem pollJobStatus_failed_double_onError :
    pollJobStatus (fun _ => .ok ⟨.failed, 100, none, some "boom"⟩) 300 =
      ([.onError "boom", .onError "boom"], .rejected "boom") ∧
    ((pollJobStatus (fun _ => .ok ⟨.failed, 100, none, some "boom"⟩) 300).1.countP
        isTerminalCb) = 2 := by
  constructor
  · rfl
  · rfl

/-- C5 counterexample.  A transport that delivers one `content` event and
then ends cleanly (reader reports done) has ended before any terminal
event, yet `executeStream` leaves the read loop and returns normally:
`onError` is never invoked, refuting the claim for the "transport ends"
case. -/
theorem executeStream_eof_before_terminal_is_silent :
    ([StreamEvent.content "partial"].any isTerminalEvent = false) ∧
    (executeStream [StreamEvent.content "partial"] .eof).1.any isStreamErrorCb = false ∧
    (executeStream [StreamEvent.content "partial"] .eof).2 = .returned := by
  exact ⟨rfl, rfl, rfl⟩

/-- C5 amended.  When the transport drops with a thrown error (fetch or
read rejects), `executeStream`'s catch surfaces it: `onError` is invoked
with the error message as the last callback, and the error is rethrown;
a clean end-of-stream without a terminal event, by contrast, returns
without invoking `onError`. -/
theorem executeStream_failure_invokes_onError (frames : List StreamEvent) (msg : String) :
    (executeStream frames (.failure msg)).1.getLast? = some (.onError msg) ∧
    (executeStream frames (.failure msg)).1.any isStreamErrorCb = true ∧
    (executeStream frames (.failure msg)).2 = .threw msg := by
  refine ⟨?_, ?_, rfl⟩
  · simp [executeStream]
  · simp [executeStream, isStreamErrorCb]

/-- C6.  With `maxRequests = 10`, `timeWindowMs = 60000`: ten calls from a
fresh limiter, all inside one window, are admitted; an eleventh call
still inside the window is denied and leaves the recorded timestamps
unchanged; a call after the window has fully elapsed is admitted
again. -/
theorem rateLimiter_sliding_window (ts : List Nat) (t11 tLater : Nat)
    (hlen : ts.length = 10)
    (hwin : ∀ t ∈ ts, ∀ n ∈ ts, n - t < 60000)
    (h11 : ∀ t ∈ ts, t11 - t < 60000)
    (hLater : ∀ t ∈ ts, 60000 ≤ tLater - t) :
    runCalls chatRateLimiter [] ts = (List.replicate 10 true, ts) ∧
    canMakeRequest chatRateLimiter t11 ts = (false, ts) ∧
    (canMakeRequest chatRateLimiter tLater ts).1 = true := by
  refine ⟨?_, ?_, ?_⟩
  · have := runCalls_admits_all [] ts (by simp [hlen]) (by simpa using hwin)
    simpa [hlen] using this
  · have hkeep : ts.filter (fun t => decide (t11 - t < chatRateLimiter.timeWindow)) = ts := by
      apply List.filter_eq_self.mpr
      intro t ht
      exact decide_eq_true (h11 t ht)
    have hge : chatRateLimiter.maxRequests ≤ ts.length := by
      simp [chatRateLimiter, hlen]
    simp only [canMakeRequest, hkeep, if_pos hge]
  · have hdrop : ts.filter (fun t => decide (tLater - t < chatRateLimiter.timeWindow)) = [] := by
      apply List.filter_eq_nil_iff.mpr
      intro t ht
      have h1 := hLater t ht
      have h2 : ¬ tLater - t < chatRateLimiter.timeWindow := by
        show ¬ tLater - t < 60000
        omega
      simpa using h2
    have hno : ¬ chatRateLimiter.maxRequests ≤ ([] : List Nat).length := by decide
    simp only [canMakeRequest, hdrop, if_neg hno]

/-- C6 witness: calls at times 0..9, a denied call at 10, an admitted
call at 60009. -/
theorem rateLimiter_sliding_window_witness :
    (([0, 1, 2, 3, 4, 5, 6, 7, 8, 9] : List Nat).length = 10) ∧
    (∀ t ∈ ([0, 1, 2, 3, 4, 5, 6, 7, 8, 9] : List Nat),
      ∀ n ∈ ([0, 1, 2, 3, 4, 5, 6, 7, 8, 9] : List Nat), n - t < 60000) ∧
    (runCalls chatRateLimiter [] [0, 1, 2, 3, 4, 5, 6, 7, 8, 9] =
      (List.replicate 10 true, [0, 1, 2, 3, 4, 5, 6, 7, 8, 9]) ∧
     canMakeRequest chatRateLimiter 10 [0, 1, 2, 3, 4, 5, 6, 7, 8, 9] =
      (false, [0, 1, 2, 3, 4, 5, 6, 7, 8, 9]) ∧
     (canMakeRequest chatRateLimiter 60009 [0, 1, 2, 3, 4, 5, 6, 7, 8, 9]).1 = true) :=
  ⟨by decide, by decide,
   rateLimiter_sliding_window [0, 1, 2, 3, 4, 5, 6, 7, 8, 9] 10 60009
     (by decide) (by decide) (by decide) (by decide)⟩

/-- C8.  Saving a history of 150 turns against the cap of 100 keeps
exactly the 100 most recent turns in their original order (the list with
its first 50 entries dropped). -/
theorem trimMessages_150_keeps_last_100 {α : Type} (l : List α)
    (hlen : l.length = 150) :
    trimMessages l 100 = l.drop 50 ∧ (trimMessages l 100).length = 100 := by
  have h1 : ¬ l.length ≤ 100 := by omega
  have h2 : trimMessages l 100 = l.drop 50 := by
    simp only [trimMessages, if_neg h1, sliceLast, hlen]
    norm_num
  refine ⟨h2, ?_⟩
  rw [h2, List.length_drop, hlen]

/-- C8 witness on the 150-element list `0, 1, ..., 149`. -/
theorem trimMessages_150_keeps_last_100_witness :
    ((List.range 150).length = 150) ∧
    (trimMessages (List.range 150) 100 = (List.range 150).drop 50 ∧
     (trimMessages (List.range 150) 100).length = 100) :=
  ⟨by simp, trimMessages_150_keeps_last_100 (List.range 150) (by simp)⟩

/-- C9.  A stored envelope whose version differs from "1.0" — and every
malformed or unparsable shape — loads as `null` from `safeGetItem`, and
`loadHistory` then leaves the caller's (empty) message list untouched
instead of propagating an error. -/
theorem loadHistory_version_mismatch_keeps_empty
    (sanitizeInput : String → String) (validator : List ChatMessage → Bool)
    (agentIdValid : Bool) (ver : String) (ts : Nat) (data : List ChatMessage)
    (state : ChatState) (hver : ver ≠ "1.0") :
    safeGetItem (some validator) (.envelope ver ts data) = none ∧
    safeGetItem (some validator) (.unparsable : StoredValue (List ChatMessage)) = none ∧
    safeGetItem (some validator) (.notAnObject : StoredValue (List ChatMessage)) = none ∧
    safeGetItem (some validator) (.missingDataField : StoredValue (List ChatMessage)) = none ∧
    loadHistory sanitizeInput validator agentIdValid (.envelope ver ts data) state = state := by
  have hget : safeGetItem (some validator)
      (StoredValue.envelope ver ts data) = none := by
    simp [safeGetItem, hver]
  refine ⟨hget, rfl, rfl, rfl, ?_⟩
  unfold loadHistory
  cases agentIdValid with
  | false => rfl
  | true => simp [hget]

/-- C9 witness: version "0.9" against expected "1.0". -/
theorem loadHistory_version_mismatch_keeps_empty_witness :
    (("0.9" : String) ≠ "1.0") ∧
    (safeGetItem (some (fun _ => true)) (.envelope "0.9" 7 ([] : List ChatMessage)) = none ∧
     safeGetItem (some (fun _ => true)) (.unparsable : StoredValue (List ChatMessage)) = none ∧
     safeGetItem (some (fun _ => true)) (.notAnObject : StoredValue (List ChatMessage)) = none ∧
     safeGetItem (some (fun _ => true)) (.missingDataField : StoredValue (List ChatMessage)) = none ∧
     loadHistory id (fun _ => true) true (.envelope "0.9" 7 ([] : List ChatMessage))
       ⟨[], none, false, none⟩ = ⟨[], none, false, none⟩) :=
  ⟨by decide,
   loadHistory_version_mismatch_keeps_empty id (fun _ => true) true "0.9" 7 []
     ⟨[], none, false, none⟩ (by decide)⟩

/-- C10.  An input that is not a string, trims to the empty string, or
exceeds 10000 characters after trimming is rejected by `validateMessage`
with `valid = false` and empty sanitized text, and both send gates
return without touching the conversation, the rate limiter, or the
network. -/
theorem invalid_message_sends_nothing (sanitizeInput : String → String)
    (validAgentId : String → Bool) (now : Nat) (userId assistantId : String)
    (ts : Nat) (rl : List Nat) (state : ChatState) (query : JsValue)
    (h : query = JsValue.nonString ∨
      ∃ s, query = JsValue.str s ∧ (s.trim = "" ∨ 10000 < s.trim.length)) :
    (validateMessage sanitizeInput query).valid = false ∧
    (validateMessage sanitizeInput query).sanitized = "" ∧
    sendMessageStreamingGate sanitizeInput validAgentId now userId assistantId
      ts rl state query = (state, rl, none) ∧
    sendMessageGate sanitizeInput validAgentId now userId ts rl state query =
      (state, rl, none) := by
  obtain ⟨hv, hs⟩ := validateMessage_invalid sanitizeInput query h
  exact ⟨hv, hs,
    sendMessageStreamingGate_invalid sanitizeInput validAgentId now userId
      assistantId ts rl state query hv,
    sendMessageGate_invalid sanitizeInput validAgentId now userId ts rl state
      query hv⟩

/-- C10 witness: a non-string runtime value against a store with a
selected agent. -/
theorem invalid_message_sends_nothing_witness :
    ((JsValue.nonString = JsValue.nonString ∨
      ∃ s, JsValue.nonString = JsValue.str s ∧ (s.trim = "" ∨ 10000 < s.trim.length))) ∧
    ((validateMessage id JsValue.nonString).valid = false ∧
     (validateMessage id JsValue.nonString).sanitized = "" ∧
     sendMessageStreamingGate id (fun _ => true) 0 "u" "a" 0 []
       ⟨[], some "agent-1", false, none⟩ JsValue.nonString =
       (⟨[], some "agent-1", false, none⟩, [], none) ∧
     sendMessageGate id (fun _ => true) 0 "u" 0 []
       ⟨[], some "agent-1", false, none⟩ JsValue.nonString =
       (⟨[], some "agent-1", false, none⟩, [], none)) :=
  ⟨Or.inl rfl,
   invalid_message_sends_nothing id (fun _ => true) 0 "u" "a" 0 []
     ⟨[], some "agent-1", false, none⟩ JsValue.nonString (Or.inl rfl)⟩

/-! ## C7: quota eviction -/

/-- Entries of a list whose keys are pairwise distinct are determined by
their keys. -/
theorem key_injOn_of_nodup {l : List StorageEntry}
    (h : (l.map StorageEntry.key).Nodup) :
    ∀ a ∈ l, ∀ b ∈ l, a.key = b.key → a = b := by
  induction l with
  | nil => intro a ha; exact absurd ha (List.not_mem_nil a)
  | cons x xs ih =>
    simp only [List.map_cons, List.nodup_cons] at h
    intro a ha b hb hab
    rcases List.mem_cons.mp ha with rfl | ha' <;>
      rcases List.mem_cons.mp hb with rfl | hb'
    · rfl
    · exact absurd (hab ▸ List.mem_map_of_mem StorageEntry.key hb') h.1
    · exact absurd (hab ▸ List.mem_map_of_mem StorageEntry.key ha') h.1
    · exact ih h.2 a ha' b hb' hab

/-- C7 counterexample.  Four stored chat histories of two megabytes each
put the area at about eight megabytes, double the four-megabyte
`MAX_STORAGE_SIZE`; saving a small fifth history triggers the eviction
path, which removes only the oldest quarter (one entry), and the save
then succeeds with the store still far above the quota — refuting
"evicted ... until the store is under quota". -/
theorem safeSetItem_leaves_store_over_quota :
    (MAX_STORAGE_SIZE < getStorageSize demoStorage + 1000) ∧
    (safeSetItem (10 * 1024 * 1024) demoStorage "chat_history_e" 5 1000).1 = true ∧
    MAX_STORAGE_SIZE <
      getStorageSize
        (safeSetItem (10 * 1024 * 1024) demoStorage "chat_history_e" 5 1000).2 := by
  refine ⟨by decide, by decide, by decide⟩

/-- C7 amended.  When a save would exceed the global quota, one eviction
pass removes exactly the oldest-timestamp-first ⌈25%⌉ of the stored chat
histories (not: until the store is under quota), leaving other keys
untouched in count; the write is then attempted, and only a
quota-exceeded write triggers one more eviction pass and exactly one
retry before the save fails with `false`. -/
theorem safeSetItem_evicts_oldest_quarter_and_retries_once
    (s : Storage) (capacity : Nat) (key : String) (ts serializedLen : Nat)
    (hnd : (s.map StorageEntry.key).Nodup) :
    (((clearOldestData s).filter (fun e => isChatHistoryKey e.key)).length =
      (s.filter (fun e => isChatHistoryKey e.key)).length -
        ceilQuarter (s.filter (fun e => isChatHistoryKey e.key)).length) ∧
    (∀ e ∈ s, e ∉ clearOldestData s →
      isChatHistoryKey e.key = true ∧
        ∀ e2 ∈ clearOldestData s, isChatHistoryKey e2.key = true →
          e.timestamp ≤ e2.timestamp) ∧
    (MAX_STORAGE_SIZE < serializedLen →
      safeSetItem capacity s key ts serializedLen = (false, s)) ∧
    (∀ s1, s1 = (if MAX_STORAGE_SIZE < getStorageSize s + serializedLen
          then clearOldestData s else s) →
      serializedLen ≤ MAX_STORAGE_SIZE →
      ((getStorageSize (setItem s1 key ts serializedLen) ≤ capacity →
          safeSetItem capacity s key ts serializedLen =
            (true, setItem s1 key ts serializedLen)) ∧
       (capacity < getStorageSize (setItem s1 key ts serializedLen) →
          getStorageSize (setItem (clearOldestData s1) key ts serializedLen) ≤ capacity →
          safeSetItem capacity s key ts serializedLen =
            (true, setItem (clearOldestData s1) key ts serializedLen)) ∧
       (capacity < getStorageSize (setItem s1 key ts serializedLen) →
          capacity < getStorageSize (setItem (clearOldestData s1) key ts serializedLen) →
          safeSetItem capacity s key ts serializedLen =
            (false, clearOldestData s1)))) := by
  set chats := s.filter (fun e => isChatHistoryKey e.key) with hchats
  set m := ceilQuarter chats.length with hm
  set sorted := sortByTimestamp chats with hsorted
  have hperm : sorted.Perm chats := List.perm_insertionSort byTimestamp chats
  have hsortedSorted : sorted.Sorted byTimestamp :=
    List.sorted_insertionSort byTimestamp chats
  have hchatsNd : (chats.map StorageEntry.key).Nodup :=
    List.Nodup.sublist (List.Sublist.map StorageEntry.key (List.filter_sublist s)) hnd
  have hsortedNd : (sorted.map StorageEntry.key).Nodup :=
    ((hperm.map StorageEntry.key).nodup_iff).mpr hchatsNd
  have hvictims : oldestVictims s = (sorted.take m).map StorageEntry.key := by
    simp only [oldestVictims, ← hchats, ← hm, ← hsorted]
  have hclear : clearOldestData s =
      s.filter (fun e => !(((sorted.take m).map StorageEntry.key).contains e.key)) := by
    simp only [clearOldestData, hvictims]
  -- keys in the take-part are victims, keys in the drop-part are not
  have htake_mem : ∀ e ∈ sorted.take m,
      ((sorted.take m).map StorageEntry.key).contains e.key = true := by
    intro e he
    exact List.elem_eq_true_of_mem (List.mem_map_of_mem StorageEntry.key he)
  have hdisj : ∀ k1 ∈ (sorted.take m).map StorageEntry.key,
      k1 ∉ (sorted.drop m).map StorageEntry.key := by
    have hsplit : (sorted.take m).map StorageEntry.key ++
        (sorted.drop m).map StorageEntry.key = sorted.map StorageEntry.key := by
      rw [← List.map_append, List.take_append_drop]
    exact (List.nodup_append.mp (hsplit ▸ hsortedNd)).2.2
  have hdrop_mem : ∀ e ∈ sorted.drop m,
      ((sorted.take m).map StorageEntry.key).contains e.key = false := by
    intro e he
    cases hc : ((sorted.take m).map StorageEntry.key).contains e.key with
    | false => rfl
    | true =>
      exact absurd (List.mem_map_of_mem StorageEntry.key he)
        (hdisj e.key (List.mem_of_elem_eq_true hc))
  refine ⟨?_, ?_, ?_, ?_⟩
  · -- (a) exactly the oldest quarter of the chat slots is gone
    have h1 : (clearOldestData s).filter (fun e => isChatHistoryKey e.key) =
        chats.filter
          (fun e => !(((sorted.take m).map StorageEntry.key).contains e.key)) := by
      rw [hclear, hchats, List.filter_comm]
    rw [h1,
      (List.countP_eq_length_filter
        (fun e => !(((sorted.take m).map StorageEntry.key).contains e.key)) chats).symm,
      ← hperm.countP_eq]
    set p : StorageEntry → Bool :=
      (fun e => !(((sorted.take m).map StorageEntry.key).contains e.key))
      with hpdef
    have h2 : sorted.countP p =
        (sorted.take m).countP p + (sorted.drop m).countP p := by
      conv_lhs => rw [← List.take_append_drop m sorted]
      rw [List.countP_append]
    have h3 : (sorted.take m).countP p = 0 := by
      rw [List.countP_eq_zero]
      intro a ha
      simp only [hpdef]
      simp only [htake_mem a ha]
      simp
    have h4 : (sorted.drop m).countP p = (sorted.drop m).length := by
      rw [List.countP_eq_length]
      intro a ha
      simp only [hpdef]
      simp only [hdrop_mem a ha]
      simp
    rw [h2, h3, h4, List.length_drop, hperm.length_eq]
    omega
  · -- (b) every evicted slot is a chat history at least as old as every kept one
    intro e he hgone
    have hvic : ((sorted.take m).map StorageEntry.key).contains e.key = true := by
      cases hc : ((sorted.take m).map StorageEntry.key).contains e.key with
      | true => rfl
      | false =>
        refine absurd ?_ hgone
        rw [hclear]
        exact List.mem_filter.mpr ⟨he, by simp only [hc, Bool.not_false]⟩
    obtain ⟨v, hv, hvkey⟩ := List.mem_map.mp (List.mem_of_elem_eq_true hvic)
    have hvchat : isChatHistoryKey v.key = true := by
      have hvc : v ∈ chats := hperm.subset (List.mem_of_mem_take hv)
      rw [hchats] at hvc
      exact (List.mem_filter.mp hvc).2
    have hechat : isChatHistoryKey e.key = true := by rw [← hvkey]; exact hvchat
    refine ⟨hechat, ?_⟩
    intro e2 he2 he2chat
    -- identify e with its victim entry v via key uniqueness
    have hesorted : e ∈ sorted := by
      rw [hperm.mem_iff, hchats]
      exact List.mem_filter.mpr ⟨he, hechat⟩
    have hvsorted : v ∈ sorted := List.mem_of_mem_take hv
    have hev : e = v :=
      key_injOn_of_nodup hsortedNd e hesorted v hvsorted hvkey.symm
    -- e2 survives, hence sits in the drop-part
    have he2' : e2 ∈ s.filter
        (fun e => !(((sorted.take m).map StorageEntry.key).contains e.key)) :=
      hclear ▸ he2
    have he2s : e2 ∈ s := (List.mem_filter.mp he2').1
    have he2keep : ((sorted.take m).map StorageEntry.key).contains e2.key = false := by
      have hk := (List.mem_filter.mp he2').2
      simpa using hk
    have he2sorted : e2 ∈ sorted := by
      rw [hperm.mem_iff, hchats]
      exact List.mem_filter.mpr ⟨he2s, he2chat⟩
    have he2drop : e2 ∈ sorted.drop m := by
      rcases List.mem_append.mp
          ((List.take_append_drop m sorted).symm ▸ he2sorted) with htk | hdr
      · rw [htake_mem e2 htk] at he2keep
        exact absurd he2keep (by simp)
      · exact hdr
    -- sortedness across the take/drop split gives the bound
    have hpw : List.Pairwise byTimestamp (sorted.take m ++ sorted.drop m) := by
      rw [List.take_append_drop]
      exact hsortedSorted
    have hrel := (List.pairwise_append.mp hpw).2.2 v hv e2 he2drop
    rw [hev]
    exact hrel
  · -- (c1) oversized values are rejected outright
    intro hbig
    simp only [safeSetItem, if_pos hbig]
  · -- (c2)-(c4) one proactive eviction, one retry on quota error
    intro s1 hs1 hsmall
    have hnotbig : ¬ MAX_STORAGE_SIZE < serializedLen := by omega
    refine ⟨?_, ?_, ?_⟩
    · intro hfit
      have hset : trySetItem capacity s1 key ts serializedLen =
          some (setItem s1 key ts serializedLen) := by
        simp only [trySetItem, if_neg (not_lt.mpr hfit)]
      simp only [safeSetItem, if_neg hnotbig, ← hs1, hset]
    · intro hfail hfit
      have hset1 : trySetItem capacity s1 key ts serializedLen = none := by
        simp only [trySetItem, if_pos hfail]
      have hset2 : trySetItem capacity (clearOldestData s1) key ts serializedLen =
          some (setItem (clearOldestData s1) key ts serializedLen) := by
        simp only [trySetItem, if_neg (not_lt.mpr hfit)]
      simp only [safeSetItem, if_neg hnotbig, ← hs1, hset1, hset2]
    · intro hfail1 hfail2
      have hset1 : trySetItem capacity s1 key ts serializedLen = none := by
        simp only [trySetItem, if_pos hfail1]
      have hset2 : trySetItem capacity (clearOldestData s1) key ts serializedLen =
          none := by
        simp only [trySetItem, if_pos hfail2]
      simp only [safeSetItem, if_neg hnotbig, ← hs1, hset1, hset2]

/-- C7 witness: the four-history area of the counterexample, whose keys
are pairwise distinct, and the small save against a ten-megabyte
browser. -/
theorem safeSetItem_evicts_oldest_quarter_and_retries_once_witness :
    ((demoStorage.map StorageEntry.key).Nodup) ∧
    ((((clearOldestData demoStorage).filter (fun e => isChatHistoryKey e.key)).length =
      (demoStorage.filter (fun e => isChatHistoryKey e.key)).length -
        ceilQuarter (demoStorage.filter (fun e => isChatHistoryKey e.key)).length) ∧
     (∀ e ∈ demoStorage, e ∉ clearOldestData demoStorage →
       isChatHistoryKey e.key = true ∧
         ∀ e2 ∈ clearOldestData demoStorage, isChatHistoryKey e2.key = true →
           e.timestamp ≤ e2.timestamp) ∧
     (MAX_STORAGE_SIZE < 1000 →
       safeSetItem (10 * 1024 * 1024) demoStorage "chat_history_e" 5 1000 =
         (false, demoStorage)) ∧
     (∀ s1, s1 = (if MAX_STORAGE_SIZE < getStorageSize demoStorage + 1000
           then clearOldestData demoStorage else demoStorage) →
       1000 ≤ MAX_STORAGE_SIZE →
       ((getStorageSize (setItem s1 "chat_history_e" 5 1000) ≤ 10 * 1024 * 1024 →
           safeSetItem (10 * 1024 * 1024) demoStorage "chat_history_e" 5 1000 =
             (true, setItem s1 "chat_history_e" 5 1000)) ∧
        (10 * 1024 * 1024 < getStorageSize (setItem s1 "chat_history_e" 5 1000) →
           getStorageSize (setItem (clearOldestData s1) "chat_history_e" 5 1000) ≤
             10 * 1024 * 1024 →
           safeSetItem (10 * 1024 * 1024) demoStorage "chat_history_e" 5 1000 =
             (true, setItem (clearOldestData s1) "chat_history_e" 5 1000)) ∧
        (10 * 1024 * 1024 < getStorageSize (setItem s1 "chat_history_e" 5 1000) →
           10 * 1024 * 1024 <
             getStorageSize (setItem (clearOldestData s1) "chat_history_e" 5 1000) →
           safeSetItem (10 * 1024 * 1024) demoStorage "chat_history_e" 5 1000 =
             (false, clearOldestData s1))))) :=
  ⟨by decide,
   safeSetItem_evicts_oldest_quarter_and_retries_once demoStorage
     (10 * 1024 * 1024) "chat_history_e" 5 1000 (by decide)⟩

/-! ## C2/C3: reconciler fallback and cancellation -/

/-- The two terminal-path clauses of a transport run: a resolved run's
only terminal callback is one `onComplete` with the resolved value, and a
rejected run has no `onComplete` and ends in `onError` with the rejection
message. -/
def PathOK (r : List JobCallback × Outcome) : Prop :=
  (∀ v, r.2 = .resolved v → r.1.filter isTerminalCb = [.onComplete v]) ∧
  (∀ m, r.2 = .rejected m →
    r.1.countP isCompleteCb = 0 ∧ r.1.getLast? = some (.onError m))

theorem pathOK_wrap_base_error (msg : String) :
    PathOK (pollCatchWrap ([.onError msg], .rejected msg)) := by
  constructor
  · intro v hv
    exact absurd hv (by simp [pollCatchWrap])
  · intro m hm
    simp only [pollCatchWrap, Outcome.rejected.injEq] at hm
    subst hm
    exact ⟨by simp [pollCatchWrap, List.countP_cons, isCompleteCb], rfl⟩

theorem pathOK_wrap_netError (msg : String) :
    PathOK (pollCatchWrap ([], .rejected msg)) := by
  constructor
  · intro v hv
    exact absurd hv (by simp [pollCatchWrap])
  · intro m hm
    simp only [pollCatchWrap, Outcome.rejected.injEq] at hm
    subst hm
    exact ⟨by simp [pollCatchWrap, List.countP_cons, isCompleteCb], rfl⟩

theorem pathOK_wrap_complete (v0 : Index) :
    PathOK (pollCatchWrap ([.onComplete v0], .resolved v0)) := by
  constructor
  · intro v hv
    simp only [pollCatchWrap, Outcome.resolved.injEq] at hv
    subst hv
    simp [pollCatchWrap, List.filter, isTerminalCb, isCompleteCb, isErrorCb]
  · intro m hm
    exact absurd hm (by simp [pollCatchWrap])

/-- A value read off `getLast?` is a member. -/
theorem mem_of_getLast?_eq_some {α : Type} {l : List α} {a : α}
    (h : l.getLast? = some a) : a ∈ l := by
  obtain ⟨hne, rfl⟩ := List.mem_getLast?_eq_getLast (Option.mem_def.mpr h)
  exact List.getLast_mem hne

theorem pathOK_wrap_progress (p : Nat) (job : JobResponse)
    (r : List JobCallback × Outcome) (h : PathOK r) :
    PathOK (pollCatchWrap (.onProgress p job :: r.1, r.2)) := by
  obtain ⟨hres, hrej⟩ := h
  cases hout : r.2 with
  | resolved v =>
    constructor
    · intro v2 hv2
      simp only [pollCatchWrap, hout] at hv2 ⊢
      simp only [Outcome.resolved.injEq] at hv2
      subst hv2
      have hfil := hres v hout
      simp [List.filter, isTerminalCb, isCompleteCb, isErrorCb, hfil]
    · intro m hm
      simp only [pollCatchWrap, hout] at hm
      exact absurd hm (by simp)
  | rejected mm =>
    constructor
    · intro v2 hv2
      simp only [pollCatchWrap, hout] at hv2
      exact absurd hv2 (by simp)
    · intro m hm
      simp only [pollCatchWrap, hout, Outcome.rejected.injEq] at hm
      subst hm
      obtain ⟨hcnt, _⟩ := hrej mm hout
      constructor
      · simp only [pollCatchWrap, hout]
        simp [List.countP_cons, List.countP_append, isCompleteCb, hcnt]
      · simp only [pollCatchWrap, hout]
        rw [show JobCallback.onProgress p job :: r.1 ++ [JobCallback.onError mm] =
          (JobCallback.onProgress p job :: r.1) ++ [JobCallback.onError mm] from rfl,
          List.getLast?_concat]

/-- Every reachable call of the poll loop satisfies the terminal-path
clauses: syntactic bound `fuel` plus the `attempts > maxAttempts` guard
keep the zero-fuel branch unreachable. -/
theorem pollGo_pathOK (fetch : Nat → PollFetch) (maxAttempts : Nat) :
    ∀ fuel attempt, attempt + fuel = maxAttempts + 2 → attempt ≤ maxAttempts + 1 →
      PathOK (pollGo fetch maxAttempts fuel attempt) := by
  intro fuel
  induction fuel with
  | zero => intro attempt hsum hatt; omega
  | succ fuel ih =>
    intro attempt hsum hatt
    by_cases hguard : maxAttempts < attempt
    · simpa only [pollGo, if_pos hguard] using
        pathOK_wrap_base_error "Job polling timeout: maximum attempts reached"
    · cases hfetch : fetch attempt with
      | netError m =>
        simpa only [pollGo, if_neg hguard, hfetch] using pathOK_wrap_netError m
      | ok job =>
        cases hst : job.status with
        | pending =>
          have hrec := ih (attempt + 1) (by omega) (by omega)
          simpa only [pollGo, if_neg hguard, hfetch, hst] using
            pathOK_wrap_progress job.progress job _ hrec
        | running =>
          have hrec := ih (attempt + 1) (by omega) (by omega)
          simpa only [pollGo, if_neg hguard, hfetch, hst] using
            pathOK_wrap_progress job.progress job _ hrec
        | completed =>
          cases hres : job.result with
          | some v =>
            simpa only [pollGo, if_neg hguard, hfetch, hst, hres] using
              pathOK_wrap_complete v
          | none =>
            simpa only [pollGo, if_neg hguard, hfetch, hst, hres] using
              pathOK_wrap_base_error "Job completed but no result returned"
        | failed =>
          simpa only [pollGo, if_neg hguard, hfetch, hst] using
            pathOK_wrap_base_error (jsOrDefault job.error "Job failed with unknown error")
        | other sst =>
          simpa only [pollGo, if_neg hguard, hfetch, hst] using
            pathOK_wrap_base_error ("Unknown job status: " ++ sst)

/-- `pollJobStatus` starts the loop within the reachable regime. -/
theorem pollJobStatus_pathOK (fetch : Nat → PollFetch) (maxAttempts : Nat) :
    PathOK (pollJobStatus fetch maxAttempts) :=
  pollGo_pathOK fetch maxAttempts (maxAttempts + 1) 1 (by omega) (by omega)

/-- The push phase invokes `onComplete` only on runs whose first
settlement is a resolution. -/
theorem streamGo_complete_needs_resolved :
    ∀ frames : List SSEFrame,
      (streamGo frames).1.countP isCompleteCb = 0 ∨
      ∃ v, (streamGo frames).2.1 = some (.resolved v) := by
  intro frames
  induction frames with
  | nil => left; rfl
  | cons fr rest ih =>
    cases fr with
    | connError => left; simp [streamGo, List.countP_cons, isCompleteCb]
    | message p =>
      cases p with
      | parseFailure m => left; simp [streamGo, List.countP_cons, isCompleteCb]
      | errorField v => left; simp [streamGo, List.countP_cons, isCompleteCb]
      | job j =>
        cases hst : j.status with
        | completed =>
          cases hres : j.result with
          | some v => right; exact ⟨v, by simp [streamGo, hst, hres]⟩
          | none => left; simp [streamGo, hst, hres, List.countP_cons, isCompleteCb]
        | failed => left; simp [streamGo, hst, List.countP_cons, isCompleteCb]
        | pending =>
          rcases ih with h0 | ⟨v, hv⟩
          · left; simp [streamGo, hst, List.countP_cons, isCompleteCb, h0]
          · right; exact ⟨v, by simp [streamGo, hst, hv]⟩
        | running =>
          rcases ih with h0 | ⟨v, hv⟩
          · left; simp [streamGo, hst, List.countP_cons, isCompleteCb, h0]
          · right; exact ⟨v, by simp [streamGo, hst, hv]⟩
        | other sst =>
          rcases ih with h0 | ⟨v, hv⟩
          · left; simp [streamGo, hst, List.countP_cons, isCompleteCb, h0]
          · right; exact ⟨v, by simp [streamGo, hst, hv]⟩

/-- A rejected push phase never invoked `onComplete`. -/
theorem streamJobStatus_rejected_no_complete (frames : List SSEFrame) (m : String)
    (h : (streamJobStatus frames).2 = .rejected m) :
    (streamJobStatus frames).1.countP isCompleteCb = 0 := by
  rcases streamGo_complete_needs_resolved frames with h0 | ⟨v, hv⟩
  · cases hc : (streamGo frames).2.2 with
    | true => simpa [streamJobStatus, hc] using h0
    | false =>
      simp only [streamJobStatus, hc]
      simp [List.countP_append, List.countP_cons, isCompleteCb, h0]
  · exfalso
    cases hc : (streamGo frames).2.2 with
    | true =>
      simp only [streamJobStatus, hc, hv] at h
      simp at h
    | false =>
      simp only [streamJobStatus, hc, hv] at h
      simp at h

/-- Replaying with a cancellation point equals replaying the truncated
event list: callbacks never depend on events that arrive after
`cancel()`. -/
theorem replaySession_cancel_truncates :
    ∀ (evs : List RawEvent) (c i : Nat),
      replaySession (some c) evs i = replaySession none (evs.take (c - i)) i := by
  intro evs
  induction evs with
  | nil => intro c i; simp [replaySession]
  | cons ev rest ih =>
    intro c i
    by_cases hci : c ≤ i
    · have hc0 : c - i = 0 := by omega
      rw [hc0, List.take_zero]
      have htail := ih c (i + 1)
      have htail0 : c - (i + 1) = 0 := by omega
      rw [htail0, List.take_zero] at htail
      cases ev with
      | sseCb cb =>
        simp only [replaySession, decide_eq_true hci, Bool.not_true, Bool.false_and,
          if_neg (by simp : ¬ (false = true))]
        simpa [replaySession] using htail
      | pollCb cb =>
        simp only [replaySession, decide_eq_true hci, Bool.not_true,
          if_neg (by simp : ¬ (false = true))]
        simpa [replaySession] using htail
      | fallbackCheck =>
        simp [replaySession, decide_eq_true hci]
    · have hlt : i < c := by omega
      have hdec : decide (c ≤ i) = false := by simp; omega
      have htake : c - i = (c - (i + 1)) + 1 := by omega
      rw [htake, List.take_succ_cons]
      cases ev with
      | sseCb cb =>
        simp only [replaySession, hdec]
        rw [ih c (i + 1)]
      | pollCb cb =>
        simp only [replaySession, hdec]
        rw [ih c (i + 1)]
      | fallbackCheck =>
        simp only [replaySession, hdec]
        rw [ih c (i + 1)]

/-- The push-phase callback sites of an uncancelled replay forward
everything except `onError`. -/
theorem replaySession_none_sse (scbs : List JobCallback) :
    ∀ (rest : List RawEvent) (i : Nat),
      replaySession none (scbs.map RawEvent.sseCb ++ rest) i =
        scbs.filter (fun cb => !isErrorCb cb) ++ replaySession none rest (i + scbs.length) := by
  induction scbs with
  | nil => intro rest i; simp
  | cons cb t ih =>
    intro rest i
    have hshift : i + 1 + t.length = i + (t.length + 1) := by omega
    simp only [List.map_cons, List.cons_append, replaySession, List.append_eq]
    rw [ih rest (i + 1), hshift]
    cases hcb : isErrorCb cb with
    | true => simp [List.filter, hcb]
    | false => simp [List.filter, hcb]

/-- The poll-phase callback sites of an uncancelled replay forward
everything. -/
theorem replaySession_none_poll (pcbs : List JobCallback) :
    ∀ i : Nat, replaySession none (pcbs.map RawEvent.pollCb) i = pcbs := by
  induction pcbs with
  | nil => intro i; rfl
  | cons cb t ih =>
    intro i
    simp only [List.map_cons, replaySession]
    rw [ih (i + 1)]
    rfl

/-- C3.  After the cancel function returned by `startJobPolling` runs —
after `c` callback sites and checks have executed — the caller-visible
callbacks are exactly those of the session truncated at the cancellation
point: late push frames and late poll responses contribute nothing, and
cancelling before anything ran yields no callback at all. -/
theorem startJobPolling_cancel_drops_late_callbacks (frames : List SSEFrame)
    (fetch : Nat → PollFetch) (maxAttempts : Nat) (useStreaming : Bool) (c : Nat) :
    startJobPollingRun frames fetch maxAttempts useStreaming (some c) =
      replaySession none
        ((rawSession frames fetch maxAttempts useStreaming).take c) 0 ∧
    startJobPollingRun frames fetch maxAttempts useStreaming (some 0) = [] := by
  constructor
  · have := replaySession_cancel_truncates
      (rawSession frames fetch maxAttempts useStreaming) c 0
    simpa [startJobPollingRun] using this
  · have := replaySession_cancel_truncates
      (rawSession frames fetch maxAttempts useStreaming) 0 0
    simpa [startJobPollingRun, replaySession] using this

/-- C2 counterexample.  A push channel that fails on connection, followed
by a poll that finds the job `failed`, reaches the caller's `onError`
twice (the poll loop's catch re-reports), refuting "exactly one terminal
callback" as stated. -/
theorem startJobPolling_fallback_two_onError :
    startJobPollingCallbacks [SSEFrame.connError]
        (fun _ => .ok ⟨.failed, 100, none, some "boom"⟩) 300 true =
      [.onError "boom", .onError "boom"] ∧
    (startJobPollingCallbacks [SSEFrame.connError]
        (fun _ => .ok ⟨.failed, 100, none, some "boom"⟩) 300 true).countP
      isTerminalCb = 2 := by
  exact ⟨rfl, rfl⟩

/-- C2 amended.  Whenever the push phase's promise rejects — which covers
every push-channel error before a terminal event — `startJobPolling`
falls back to the poll loop exactly once (one fallback decision, then the
poll loop's callbacks), the push phase's `onError` surface is swallowed
and never reaches the caller, and the whole session takes exactly one
terminal path: either `onComplete` fires exactly once and `onError`
never, or `onComplete` never fires and `onError` fires at least once
(possibly more than once, by the poll loop's catch re-report). -/
theorem startJobPolling_fallback_single_terminal_path
    (frames : List SSEFrame) (fetch : Nat → PollFetch) (maxAttempts : Nat)
    (m : String) (hpush : (streamJobStatus frames).2 = .rejected m) :
    (rawSession frames fetch maxAttempts true).countP
        (fun ev => ev == RawEvent.fallbackCheck) = 1 ∧
    startJobPollingCallbacks frames fetch maxAttempts true =
      (streamJobStatus frames).1.filter (fun cb => !isErrorCb cb) ++
        (pollJobStatus fetch maxAttempts).1 ∧
    ((streamJobStatus frames).1.filter (fun cb => !isErrorCb cb)).countP isErrorCb = 0 ∧
    ((∃ v, (startJobPollingCallbacks frames fetch maxAttempts true).filter
        isTerminalCb = [.onComplete v]) ∨
     ((startJobPollingCallbacks frames fetch maxAttempts true).countP isCompleteCb = 0 ∧
      0 < (startJobPollingCallbacks frames fetch maxAttempts true).countP isErrorCb)) := by
  have hraw : rawSession frames fetch maxAttempts true =
      (streamJobStatus frames).1.map RawEvent.sseCb ++
        (.fallbackCheck :: ((pollJobStatus fetch maxAttempts).1.map RawEvent.pollCb)) := by
    simp only [rawSession, hpush]
    exact if_pos trivial
  have hvis : startJobPollingCallbacks frames fetch maxAttempts true =
      (streamJobStatus frames).1.filter (fun cb => !isErrorCb cb) ++
        (pollJobStatus fetch maxAttempts).1 := by
    rw [startJobPollingCallbacks, startJobPollingRun, hraw,
      replaySession_none_sse]
    congr 1
    simp only [replaySession]
    exact replaySession_none_poll _ _
  have hsse_noerr : ((streamJobStatus frames).1.filter
      (fun cb => !isErrorCb cb)).countP isErrorCb = 0 := by
    rw [List.countP_eq_zero]
    intro cb hcb
    have := (List.mem_filter.mp hcb).2
    simp only [Bool.not_eq_eq_eq_not, Bool.not_true] at this
    simp [this]
  have hsse_nocomp : ((streamJobStatus frames).1.filter
      (fun cb => !isErrorCb cb)).countP isCompleteCb = 0 := by
    have h0 := streamJobStatus_rejected_no_complete frames m hpush
    have hle := (List.filter_sublist
      (l := (streamJobStatus frames).1)
      (p := fun cb => !isErrorCb cb)).countP_le isCompleteCb
    omega
  refine ⟨?_, hvis, hsse_noerr, ?_⟩
  · rw [hraw, List.countP_append, List.countP_cons]
    have h1 : ((streamJobStatus frames).1.map RawEvent.sseCb).countP
        (fun ev => ev == RawEvent.fallbackCheck) = 0 := by
      rw [List.countP_eq_zero]
      intro ev hev
      obtain ⟨cb, _, rfl⟩ := List.mem_map.mp hev
      simp
    have h2 : (((pollJobStatus fetch maxAttempts).1).map RawEvent.pollCb).countP
        (fun ev => ev == RawEvent.fallbackCheck) = 0 := by
      rw [List.countP_eq_zero]
      intro ev hev
      obtain ⟨cb, _, rfl⟩ := List.mem_map.mp hev
      simp
    simp [h1, h2]
  · obtain ⟨hres, hrej⟩ := pollJobStatus_pathOK fetch maxAttempts
    cases hout : (pollJobStatus fetch maxAttempts).2 with
    | resolved v =>
      left
      refine ⟨v, ?_⟩
      rw [hvis, List.filter_append]
      have hsseT : ((streamJobStatus frames).1.filter
          (fun cb => !isErrorCb cb)).filter isTerminalCb = [] := by
        rw [List.filter_eq_nil_iff]
        intro cb hcb
        have herr : isErrorCb cb = false := by
          have := (List.mem_filter.mp hcb).2
          simpa using this
        have hcomp : isCompleteCb cb = false := by
          have hmem := (List.mem_filter.mp hcb).1
          have h0 := streamJobStatus_rejected_no_complete frames m hpush
          cases hc : isCompleteCb cb with
          | false => rfl
          | true =>
            have : 0 < (streamJobStatus frames).1.countP isCompleteCb :=
              List.countP_pos_iff.mpr ⟨cb, hmem, hc⟩
            omega
        simp [isTerminalCb, herr, hcomp]
      rw [hsseT, hres v hout]
      rfl
    | rejected mm =>
      right
      obtain ⟨hcnt, hlast⟩ := hrej mm hout
      constructor
      · rw [hvis, List.countP_append, hsse_nocomp, hcnt]
      · rw [hvis, List.countP_append]
        have hmem : JobCallback.onError mm ∈ (pollJobStatus fetch maxAttempts).1 :=
          mem_of_getLast?_eq_some hlast
        have : 0 < ((pollJobStatus fetch maxAttempts).1).countP isErrorCb :=
          List.countP_pos_iff.mpr ⟨.onError mm, hmem, rfl⟩
        omega

/-- C2 witness: a connection error on the push channel, then a poll that
finds the job completed. -/
theorem startJobPolling_fallback_single_terminal_path_witness :
    ((streamJobStatus [SSEFrame.connError]).2 =
      .rejected "Stream connection failed") ∧
    ((rawSession [SSEFrame.connError]
        (fun _ => .ok ⟨.completed, 100, some ⟨"idx"⟩, none⟩) 300 true).countP
        (fun ev => ev == RawEvent.fallbackCheck) = 1 ∧
     startJobPollingCallbacks [SSEFrame.connError]
        (fun _ => .ok ⟨.completed, 100, some ⟨"idx"⟩, none⟩) 300 true =
      (streamJobStatus [SSEFrame.connError]).1.filter (fun cb => !isErrorCb cb) ++
        (pollJobStatus (fun _ => .ok ⟨.completed, 100, some ⟨"idx"⟩, none⟩) 300).1 ∧
     ((streamJobStatus [SSEFrame.connError]).1.filter
        (fun cb => !isErrorCb cb)).countP isErrorCb = 0 ∧
     ((∃ v, (startJobPollingCallbacks [SSEFrame.connError]
          (fun _ => .ok ⟨.completed, 100, some ⟨"idx"⟩, none⟩) 300 true).filter
          isTerminalCb = [.onComplete v]) ∨
      ((startJobPollingCallbacks [SSEFrame.connError]
          (fun _ => .ok ⟨.completed, 100, some ⟨"idx"⟩, none⟩) 300 true).countP
          isCompleteCb = 0 ∧
       0 < (startJobPollingCallbacks [SSEFrame.connError]
          (fun _ => .ok ⟨.completed, 100, some ⟨"idx"⟩, none⟩) 300 true).countP
          isErrorCb))) :=
  ⟨rfl,
   startJobPolling_fallback_single_terminal_path [SSEFrame.connError]
     (fun _ => .ok ⟨.completed, 100, some ⟨"idx"⟩, none⟩) 300
     "Stream connection failed" rfl⟩

/-! ## C4: streaming round trip -/

/-- Hoisting the left operand out of a string concatenation fold. -/
theorem foldl_strAppend_hoist (l : List String) :
    ∀ a b : String,
      l.foldl (fun r s => r ++ s) (a ++ b) = a ++ l.foldl (fun r s => r ++ s) b := by
  induction l with
  | nil => intro a b; rfl
  | cons x t ih =>
    intro a b
    simp only [List.foldl_cons]
    rw [String.append_assoc, ih]

/-- Unfolding one element of `String.join`. -/
theorem string_join_cons (c : String) (l : List String) :
    String.join (c :: l) = c ++ String.join l := by
  show l.foldl (fun r s => r ++ s) ("" ++ c) = c ++ l.foldl (fun r s => r ++ s) ""
  rw [String.empty_append, ← String.append_empty c, foldl_strAppend_hoist,
    String.append_empty]

/-- The `messages.map` update touches only the trailing assistant
placeholder when every other id differs. -/
theorem updateAssistant_append (aId : String) (f : ChatMessage → ChatMessage)
    (L : List ChatMessage) (a : ChatMessage)
    (hL : ∀ mm ∈ L, mm.id ≠ aId) (ha : a.id = aId) :
    updateAssistant aId f (L ++ [a]) = L ++ [f a] := by
  unfold updateAssistant
  rw [List.map_append]
  congr 1
  · induction L with
    | nil => rfl
    | cons x t ihL =>
      have hx : x.id ≠ aId := hL x (List.mem_cons_self x t)
      simp only [List.map_cons, if_neg hx]
      rw [ihL (fun mm hm => hL mm (List.mem_cons_of_mem x hm))]
  · simp [ha]

/-- Dispatching a non-terminal stream event yields only non-terminal
callbacks. -/
theorem dispatch_nonterminal (fr : StreamEvent) (h : isTerminalEvent fr = false) :
    ∀ cb ∈ dispatchEvent fr, isTerminalStreamCb cb = false := by
  cases fr <;> simp_all [dispatchEvent, isTerminalStreamCb, isTerminalEvent]

/-- The content deltas recovered from the dispatched callbacks are
exactly the deltas of the events. -/
theorem dispatch_deltas (frames : List StreamEvent) :
    ((frames.map dispatchEvent).flatten).filterMap streamCbDelta =
      streamDeltas frames := by
  induction frames with
  | nil => rfl
  | cons fr t ih =>
    cases fr <;>
      simp_all [dispatchEvent, streamCbDelta, streamDeltas, List.filterMap_cons]

/-- Folding non-terminal callbacks through the store keeps the shape
`prior ++ [assistant message]`, leaves `isExecuting`/`error` alone, and
accumulates the content deltas onto the placeholder's content. -/
theorem runStreaming_nonterminal (aId : String) :
    ∀ (cbs : List StreamCallback), (∀ cb ∈ cbs, isTerminalStreamCb cb = false) →
    ∀ (L : List ChatMessage) (a : ChatMessage) (ex : Bool) (er : Option String),
      (∀ mm ∈ L, mm.id ≠ aId) → a.id = aId →
      ∃ a2 : ChatMessage,
        runStreamingCallbacks aId ⟨L ++ [a], a.content, ex, er⟩ cbs =
          ⟨L ++ [a2], a2.content, ex, er⟩ ∧
        a2.id = aId ∧ a2.role = a.role ∧
        a2.content = a.content ++ String.join (cbs.filterMap streamCbDelta) ∧
        a2.executionTimeMs = a.executionTimeMs := by
  intro cbs
  induction cbs with
  | nil =>
    intro _ L a ex er hL ha
    exact ⟨a, rfl, ha, rfl, (String.append_empty a.content).symm, rfl⟩
  | cons cb t ih =>
    intro hnt L a ex er hL ha
    have hcb : isTerminalStreamCb cb = false := hnt cb (List.mem_cons_self cb t)
    have hnt' : ∀ c ∈ t, isTerminalStreamCb c = false :=
      fun c hc => hnt c (List.mem_cons_of_mem cb hc)
    cases cb with
    | onDone ms => simp [isTerminalStreamCb] at hcb
    | onError e => simp [isTerminalStreamCb] at hcb
    | onMetadata x y z =>
      obtain ⟨a2, heq, hid, hrole, hcontent, hexec⟩ := ih hnt' L a ex er hL ha
      refine ⟨a2, ?_, hid, hrole, ?_, hexec⟩
      · show runStreamingCallbacks aId
          (applyStreamCallback aId ⟨L ++ [a], a.content, ex, er⟩ (.onMetadata x y z)) t =
            ⟨L ++ [a2], a2.content, ex, er⟩
        exact heq
      · simpa [List.filterMap_cons, streamCbDelta] using hcontent
    | onContext docs =>
      have hupd : applyStreamCallback aId ⟨L ++ [a], a.content, ex, er⟩
          (.onContext docs) =
          ⟨L ++ [{ a with contextDocuments := some docs }],
            { a with contextDocuments := some docs }.content, ex, er⟩ := by
        simp only [applyStreamCallback]
        rw [updateAssistant_append aId _ L a hL ha]
      obtain ⟨a2, heq, hid, hrole, hcontent, hexec⟩ :=
        ih hnt' L { a with contextDocuments := some docs } ex er hL ha
      refine ⟨a2, ?_, hid, hrole, ?_, hexec⟩
      · show runStreamingCallbacks aId
          (applyStreamCallback aId ⟨L ++ [a], a.content, ex, er⟩ (.onContext docs)) t =
            ⟨L ++ [a2], a2.content, ex, er⟩
        rw [hupd]
        exact heq
      · simpa [List.filterMap_cons, streamCbDelta] using hcontent
    | onContent c =>
      have hupd : applyStreamCallback aId ⟨L ++ [a], a.content, ex, er⟩
          (.onContent c) =
          ⟨L ++ [{ a with content := a.content ++ c }],
            { a with content := a.content ++ c }.content, ex, er⟩ := by
        simp only [applyStreamCallback]
        rw [updateAssistant_append aId _ L a hL ha]
      obtain ⟨a2, heq, hid, hrole, hcontent, hexec⟩ :=
        ih hnt' L { a with content := a.content ++ c } ex er hL ha
      refine ⟨a2, ?_, hid, hrole, ?_, hexec⟩
      · show runStreamingCallbacks aId
          (applyStreamCallback aId ⟨L ++ [a], a.content, ex, er⟩ (.onContent c)) t =
            ⟨L ++ [a2], a2.content, ex, er⟩
        rw [hupd]
        exact heq
      · rw [hcontent]
        show a.content ++ c ++ String.join (t.filterMap streamCbDelta) =
          a.content ++ String.join ((StreamCallback.onContent c :: t).filterMap streamCbDelta)
        rw [List.filterMap_cons]
        show a.content ++ c ++ String.join (t.filterMap streamCbDelta) =
          a.content ++ String.join (c :: t.filterMap streamCbDelta)
        rw [string_join_cons, String.append_assoc]

/-- Trimming keeps the most recent message. -/
theorem trimMessages_getLast? {α : Type} (l : List α) (n : Nat) (hn : n ≠ 0) :
    (trimMessages l n).getLast? = l.getLast? := by
  unfold trimMessages
  by_cases hlen : l.length ≤ n
  · rw [if_pos hlen]
  · rw [if_neg hlen]
    unfold sliceLast
    rw [if_neg hn, List.getLast?_drop]
    have : ¬ l.length ≤ l.length - n := by omega
    rw [if_neg this]

/-- C4.  For a generation run whose delivered events are non-terminal
frames followed by one `done` event, the assistant message held by the
chat store after the run ends carries exactly the concatenation, in
emission order, of all content deltas of the stream, together with the
execution time, and `isExecuting` is cleared. -/
theorem streaming_content_roundtrip (prior : List ChatMessage)
    (assistantId : String) (ts : Nat) (frames : List StreamEvent) (ms : Nat)
    (hfresh : ∀ mm ∈ prior, mm.id ≠ assistantId)
    (hclean : ∀ fr ∈ frames, isTerminalEvent fr = false) :
    ((runStreamingCallbacks assistantId (streamingInitState prior assistantId ts)
        ((executeStream (frames ++ [.done ms]) .eof).1)).messages.getLast?.map
      ChatMessage.content = some (String.join (streamDeltas frames))) ∧
    ((runStreamingCallbacks assistantId (streamingInitState prior assistantId ts)
        ((executeStream (frames ++ [.done ms]) .eof).1)).messages.getLast?.map
      ChatMessage.id = some assistantId) ∧
    ((runStreamingCallbacks assistantId (streamingInitState prior assistantId ts)
        ((executeStream (frames ++ [.done ms]) .eof).1)).messages.getLast?.map
      ChatMessage.executionTimeMs = some (some ms)) ∧
    (runStreamingCallbacks assistantId (streamingInitState prior assistantId ts)
        ((executeStream (frames ++ [.done ms]) .eof).1)).isExecuting = false := by
  have hcbs : (executeStream (frames ++ [.done ms]) .eof).1 =
      (frames.map dispatchEvent).flatten ++ [.onDone ms] := by
    simp [executeStream, dispatchEvent]
  have hfront : ∀ cb ∈ (frames.map dispatchEvent).flatten,
      isTerminalStreamCb cb = false := by
    intro cb hcb
    obtain ⟨l, hl, hcbl⟩ := List.mem_flatten.mp hcb
    obtain ⟨fr, hfr, rfl⟩ := List.mem_map.mp hl
    exact dispatch_nonterminal fr (hclean fr hfr) cb hcbl
  set a0 : ChatMessage := ⟨assistantId, .assistant, "", ts, none, none⟩ with ha0
  have hinit : streamingInitState prior assistantId ts =
      ⟨prior ++ [a0], a0.content, true, none⟩ := by
    simp [streamingInitState, ha0]
  obtain ⟨a2, heq, hid, hrole, hcontent, hexec⟩ :=
    runStreaming_nonterminal assistantId ((frames.map dispatchEvent).flatten)
      hfront prior a0 true none hfresh rfl
  have hsplit : runStreamingCallbacks assistantId
      (streamingInitState prior assistantId ts)
      ((executeStream (frames ++ [.done ms]) .eof).1) =
      applyStreamCallback assistantId ⟨prior ++ [a2], a2.content, true, none⟩
        (.onDone ms) := by
    rw [hcbs, hinit]
    show runStreamingCallbacks assistantId
        ⟨prior ++ [a0], a0.content, true, none⟩
        ((frames.map dispatchEvent).flatten ++ [.onDone ms]) = _
    unfold runStreamingCallbacks
    rw [List.foldl_append]
    show applyStreamCallback assistantId
        (runStreamingCallbacks assistantId ⟨prior ++ [a0], a0.content, true, none⟩
          ((frames.map dispatchEvent).flatten)) (.onDone ms) = _
    rw [heq]
  have hdone : applyStreamCallback assistantId
      ⟨prior ++ [a2], a2.content, true, none⟩ (.onDone ms) =
      ⟨trimMessages (prior ++ [{ a2 with executionTimeMs := some ms }])
          MAX_MESSAGES_PER_AGENT, a2.content, false, none⟩ := by
    simp only [applyStreamCallback]
    rw [updateAssistant_append assistantId _ prior a2 hfresh hid]
  have hlast : (trimMessages (prior ++ [{ a2 with executionTimeMs := some ms }])
      MAX_MESSAGES_PER_AGENT).getLast? =
      some { a2 with executionTimeMs := some ms } := by
    rw [trimMessages_getLast? _ _ (by simp [MAX_MESSAGES_PER_AGENT]),
      List.getLast?_concat]
  have hcontent2 : a2.content = String.join (streamDeltas frames) := by
    rw [hcontent, dispatch_deltas]
    have hz : a0.content = "" := rfl
    rw [hz, String.empty_append]
  rw [hsplit, hdone]
  refine ⟨?_, ?_, ?_, rfl⟩
  · show (trimMessages (prior ++ [{ a2 with executionTimeMs := some ms }])
        MAX_MESSAGES_PER_AGENT).getLast?.map ChatMessage.content = _
    rw [hlast]
    simp [hcontent2]
  · show (trimMessages (prior ++ [{ a2 with executionTimeMs := some ms }])
        MAX_MESSAGES_PER_AGENT).getLast?.map ChatMessage.id = _
    rw [hlast]
    simp [hid]
  · show (trimMessages (prior ++ [{ a2 with executionTimeMs := some ms }])
        MAX_MESSAGES_PER_AGENT).getLast?.map ChatMessage.executionTimeMs = _
    rw [hlast]
    simp

/-- C4 witness: two deltas "Hel" and "lo" after a context frame
reassemble to "Hello". -/
theorem streaming_content_roundtrip_witness :
    ((∀ mm ∈ [(⟨"u1", .user, "hi", 0, none, none⟩ : ChatMessage)], mm.id ≠ "a1") ∧
     (∀ fr ∈ [StreamEvent.context ["doc"], StreamEvent.content "Hel",
        StreamEvent.content "lo"], isTerminalEvent fr = false)) ∧
    (((runStreamingCallbacks "a1"
        (streamingInitState [⟨"u1", .user, "hi", 0, none, none⟩] "a1" 0)
        ((executeStream ([StreamEvent.context ["doc"], StreamEvent.content "Hel",
            StreamEvent.content "lo"] ++ [.done 5]) .eof).1)).messages.getLast?.map
      ChatMessage.content =
        some (String.join (streamDeltas [StreamEvent.context ["doc"],
          StreamEvent.content "Hel", StreamEvent.content "lo"]))) ∧
     ((runStreamingCallbacks "a1"
        (streamingInitState [⟨"u1", .user, "hi", 0, none, none⟩] "a1" 0)
        ((executeStream ([StreamEvent.context ["doc"], StreamEvent.content "Hel",
            StreamEvent.content "lo"] ++ [.done 5]) .eof).1)).messages.getLast?.map
      ChatMessage.id = some "a1") ∧
     ((runStreamingCallbacks "a1"
        (streamingInitState [⟨"u1", .user, "hi", 0, none, none⟩] "a1" 0)
        ((executeStream ([StreamEvent.context ["doc"], StreamEvent.content "Hel",
            StreamEvent.content "lo"] ++ [.done 5]) .eof).1)).messages.getLast?.map
      ChatMessage.executionTimeMs = some (some 5)) ∧
     (runStreamingCallbacks "a1"
        (streamingInitState [⟨"u1", .user, "hi", 0, none, none⟩] "a1" 0)
        ((executeStream ([StreamEvent.context ["doc"], StreamEvent.content "Hel",
            StreamEvent.content "lo"] ++ [.done 5]) .eof).1)).isExecuting = false) :=
  ⟨⟨by decide, by decide⟩,
   streaming_content_roundtrip [⟨"u1", .user, "hi", 0, none, none⟩] "a1" 0
     [StreamEvent.context ["doc"], StreamEvent.content "Hel",
       StreamEvent.content "lo"] 5 (by decide) (by decide)⟩

end RagChatbot
